import Mathlib

/-!
# service-ready-exporter: the readiness collector of `main.go`

A shallow embedding of `main.go` and a verification of its specification.

Conventions of the embedding.

* A Go `string` is a sequence of bytes.  The strings that come from the control-plane API
  (namespace names, resource names, rule hosts) and everything built from them (URLs,
  label values) are byte strings, `GoString`: they reach the client library's UTF-8 check
  and nothing in `main.go` validates them.  String constants of the program text, the
  environment variable, file paths and error messages are Lean `String`s; `utf8 s` is the
  byte string of the constant `s`.
* A Go `int` is an `Int`.  The gauge value `float64(status)` is recorded as the integer
  `status` that is converted (the only values converted are `0` and `1`).
* An `error` is an `Error`: an error of the outside world is identified by its message, an
  error of the client library by its kind and arguments.
* A Go function returning `(T, error)` returns `Except Error T`.
* A Go function that may `panic` returns an `Outcome`.
* The world outside the process (environment variable, credential sources, control-plane
  API, HTTP) is a parameter: `Env`, `Clientset` and `HTTP` hold the answer of every call
  the program can make.  The answer of `http.Get` may depend on how many requests were
  issued before it, so every sequence of probe results is covered.
* Calls to the outside world are logged (`Call`, the request log of `getReadyz`) so that
  "is consulted" and "issues no probe" are statements about the log.
* Functions of the Prometheus client library that `main.go` calls (`BuildFQName`,
  `NewDesc`, `MustNewConstMetric`) are embedded next to the code that calls them.
-/

namespace ServiceReady

/-! ## Data model -/

/-- A Go `string`: a sequence of bytes, not necessarily valid UTF-8. -/
abbrev GoString := List UInt8

/-- The byte string of a string constant: its UTF-8 encoding. -/
def utf8 (s : String) : GoString :=
  s.data.flatMap String.utf8EncodeChar

/-- A Go `error`.  `msg` is an error returned by the outside world (credential source,
control plane, HTTP), identified by its message; the others are the errors of the
Prometheus client library that `NewDesc` and `NewConstMetric` produce. -/
inductive Error where
  | msg (text : String)
  | notValidMetricName (fqName : String)
  | notValidLabelName (labelName fqName : String)
  | duplicateLabelNames (fqName : String)
  | inconsistentCardinality (expected : Nat) (labelValues : List GoString)
  | labelValueNotValidUTF8 (val : GoString)
  deriving DecidableEq, Repr

/-- How a Go call that may panic ends. -/
inductive Outcome (α : Type) where
  | returned (a : α)
  | panicked (e : Error)
  deriving DecidableEq, Repr

/-- `main.go:22-24`, the constant `namespace`. -/
def namespace_ : String := "service_ready"

/-- `main.go:26-28`, the variable `readyLabels`. -/
def readyLabels : List String := ["namespace", "name", "host"]

/-- `main.go:32-36`, the struct `Ingress` (field `namespace` is written `namespace_`). -/
structure Ingress where
  namespace_ : GoString
  name : GoString
  host : GoString
  deriving DecidableEq, Repr

/-- `main.go:30`, the type `Ingresses`. -/
abbrev Ingresses := List Ingress

/-! ## Kubernetes API objects, as far as `main.go` reads them -/

/-- A `corev1.Namespace`: only `Name` is read. -/
structure Namespace where
  Name : GoString
  deriving DecidableEq, Repr

/-- A `corev1.NamespaceList`. -/
structure NamespaceList where
  Items : List Namespace
  deriving DecidableEq, Repr

/-- A `v1beta1.IngressRule`: only `Host` is read. -/
structure IngressRule where
  Host : GoString
  deriving DecidableEq, Repr

/-- A `v1beta1.IngressSpec`: only `Rules` is read. -/
structure IngressSpec where
  Rules : List IngressRule
  deriving DecidableEq, Repr

/-- A `v1beta1.Ingress` of the cluster: `Name` and `Spec` are read. -/
structure V1beta1Ingress where
  Name : GoString
  Spec : IngressSpec
  deriving DecidableEq, Repr

/-- A `v1beta1.IngressList`. -/
structure IngressList where
  Items : List V1beta1Ingress
  deriving DecidableEq, Repr

/-- A `*kubernetes.Clientset`: the answers of the two listing calls `main.go` makes,
`CoreV1().Namespaces().List` and `NetworkingV1beta1().Ingresses(ns).List`. -/
structure Clientset where
  listNamespaces : Except Error NamespaceList
  listIngresses : GoString → Except Error IngressList

/-- A `*rest.Config`, identified by where it came from. -/
structure Config where
  source : String
  deriving DecidableEq, Repr

/-- An `*http.Response`: only `StatusCode` is read. -/
structure Response where
  StatusCode : Int
  deriving DecidableEq, Repr

/-- The answers of `http.Get`: `Get n url` is the result of requesting `url` when `n`
requests were issued before. -/
structure HTTP where
  Get : Nat → GoString → Except Error Response

/-- The process environment and the credential sources `k8s` can call. -/
structure Env where
  KUBECONFIG_CONTENT : String
  RESTConfigFromKubeConfig : String → Except Error Config
  InClusterConfig : Except Error Config
  BuildConfigFromFlags : String → String → Except Error Config
  NewForConfig : Config → Except Error Clientset
  http : HTTP

/-- A call `k8s` makes to a credential source or to the client constructor. -/
inductive Call where
  | RESTConfigFromKubeConfig (content : String)
  | InClusterConfig
  | BuildConfigFromFlags (masterUrl kubeconfigPath : String)
  | NewForConfig (config : Config)
  deriving DecidableEq, Repr

/-! ## The metric descriptor (Prometheus client library) -/

/-- Library `prometheus.ValueType`. -/
inductive ValueType where
  | CounterValue
  | GaugeValue
  | UntypedValue
  deriving DecidableEq, Repr

/-- Library `prometheus.Desc`: the fields `NewDesc` sets that `main.go` depends on. -/
structure Desc where
  fqName : String
  help : String
  variableLabels : List String
  err : Option Error
  deriving DecidableEq, Repr

/-- A constant metric as built by `MustNewConstMetric`. -/
structure Metric where
  desc : Desc
  valType : ValueType
  val : Int
  labelValues : List GoString
  deriving DecidableEq, Repr

/-- Library `prometheus.BuildFQName`: the non-empty parts joined by `_`, and the empty
string when `name` is empty. -/
def BuildFQName (ns subsystem name : String) : String :=
  if name = "" then ""
  else if ns ≠ "" ∧ subsystem ≠ "" then ns ++ "_" ++ subsystem ++ "_" ++ name
  else if ns ≠ "" then ns ++ "_" ++ name
  else if subsystem ≠ "" then subsystem ++ "_" ++ name
  else name

/-- One character of a metric name (library `model.IsValidMetricName`): a letter, `_`,
`:`, or a digit that is not the first character. -/
def metricNameChar (first : Bool) (b : Char) : Bool :=
  decide (('a' ≤ b ∧ b ≤ 'z') ∨ ('A' ≤ b ∧ b ≤ 'Z') ∨ b = '_' ∨ b = ':'
    ∨ ('0' ≤ b ∧ b ≤ '9' ∧ first = false))

/-- One character of a label name (library `model.LabelName.IsValid`): a letter, `_`, or
a digit that is not the first character. -/
def labelNameChar (first : Bool) (b : Char) : Bool :=
  decide (('a' ≤ b ∧ b ≤ 'z') ∨ ('A' ≤ b ∧ b ≤ 'Z') ∨ b = '_'
    ∨ ('0' ≤ b ∧ b ≤ '9' ∧ first = false))

/-- The loop of the two validity checks: the first character is checked with
`first = true`, the others with `first = false`. -/
def allChars (ok : Bool → Char → Bool) : Bool → List Char → Bool
  | _, [] => true
  | first, b :: rest => ok first b && allChars ok false rest

/-- Library `model.IsValidMetricName`. -/
def IsValidMetricName (n : String) : Bool :=
  !n.data.isEmpty && allChars metricNameChar true n.data

/-- Library `checkLabelName`: a valid label name that does not start with `__`. -/
def checkLabelName (l : String) : Bool :=
  (!l.data.isEmpty && allChars labelNameChar true l.data)
    && (match l.data with
      | '_' :: '_' :: _ => false
      | _ => true)

/-- Library `prometheus.NewDesc` without constant labels (`main.go` passes `nil`): the
descriptor records an error when the metric name or a label name is invalid or a label
name is repeated.  The error is recorded by its kind and arguments, not by its text. -/
def NewDesc (fqName help : String) (variableLabels : List String) : Desc :=
  if !IsValidMetricName fqName then
    { fqName := fqName, help := help, variableLabels := variableLabels,
      err := some (.notValidMetricName fqName) }
  else
    match variableLabels.find? (fun l => !checkLabelName l) with
    | some l =>
      { fqName := fqName, help := help, variableLabels := variableLabels,
        err := some (.notValidLabelName l fqName) }
    | none =>
      if variableLabels.length ≠ variableLabels.eraseDups.length then
        { fqName := fqName, help := help, variableLabels := variableLabels,
          err := some (.duplicateLabelNames fqName) }
      else
        { fqName := fqName, help := help, variableLabels := variableLabels, err := none }

/-- The loop of Go's `utf8.ValidString`, one byte at a time: `more` is the number of
continuation bytes still expected and `lo`, `hi` the accepted range of the next one.  A
first byte below `0x80` stands alone; `0xC2..0xDF` takes one continuation byte,
`0xE0..0xEF` two, `0xF0..0xF4` three; every other first byte is rejected.  The first
continuation byte is restricted after `0xE0`, `0xED`, `0xF0` and `0xF4` (no overlong
encoding, no surrogate, nothing above `U+10FFFF`), the others lie in `0x80..0xBF`. -/
def validStringLoop : Nat → UInt8 → UInt8 → List UInt8 → Bool
  | 0, _, _, [] => true
  | _ + 1, _, _, [] => false
  | 0, _, _, b :: rest =>
    if b < 0x80 then validStringLoop 0 0x80 0xBF rest
    else if 0xC2 ≤ b ∧ b ≤ 0xDF then validStringLoop 1 0x80 0xBF rest
    else if b = 0xE0 then validStringLoop 2 0xA0 0xBF rest
    else if b = 0xED then validStringLoop 2 0x80 0x9F rest
    else if 0xE1 ≤ b ∧ b ≤ 0xEF then validStringLoop 2 0x80 0xBF rest
    else if b = 0xF0 then validStringLoop 3 0x90 0xBF rest
    else if 0xF1 ≤ b ∧ b ≤ 0xF3 then validStringLoop 3 0x80 0xBF rest
    else if b = 0xF4 then validStringLoop 3 0x80 0x8F rest
    else false
  | more + 1, lo, hi, b :: rest =>
    if lo ≤ b ∧ b ≤ hi then validStringLoop more 0x80 0xBF rest else false

/-- Go's `utf8.ValidString`: the bytes are a sequence of well-formed UTF-8 encodings. -/
def ValidString (s : GoString) : Bool :=
  validStringLoop 0 0x80 0xBF s

/-- Library `prometheus.MustNewConstMetric`: panics with the error of `NewConstMetric`,
which is the descriptor's error if it has one, else an error when the number of label
values differs from the number of variable labels, else an error for the first label
value that is not valid UTF-8 (`validateLabelValues`). -/
def MustNewConstMetric (desc : Desc) (valueType : ValueType) (value : Int)
    (labelValues : List GoString) : Outcome Metric :=
  match desc.err with
  | some e => .panicked e
  | none =>
    if labelValues.length ≠ desc.variableLabels.length then
      .panicked (.inconsistentCardinality desc.variableLabels.length labelValues)
    else
      match labelValues.find? (fun val => !ValidString val) with
      | some val => .panicked (.labelValueNotValidUTF8 val)
      | none =>
        .returned
          { desc := desc, valType := valueType, val := value, labelValues := labelValues }

/-! ## The program -/

/-- `main.go:38-40`, the struct `Exporter`. -/
structure Exporter where
  up : Desc
  deriving DecidableEq, Repr

/-- `main.go:42-51`, `NewExporter` (the logger argument is not used by the code). -/
def NewExporter : Exporter :=
  { up := NewDesc (BuildFQName namespace_ "" "up") "Ready check is ok." readyLabels }

/-- `main.go:69-88`, `k8s`: the calls made, in order, and the result. -/
def k8s (env : Env) (kubeconfig : String) : List Call × Except Error Clientset :=
  if env.KUBECONFIG_CONTENT ≠ "" then
    match env.RESTConfigFromKubeConfig env.KUBECONFIG_CONTENT with
    | .error err => ([.RESTConfigFromKubeConfig env.KUBECONFIG_CONTENT], .error err)
    | .ok config =>
      ([.RESTConfigFromKubeConfig env.KUBECONFIG_CONTENT, .NewForConfig config],
        env.NewForConfig config)
  else
    match env.InClusterConfig with
    | .ok config => ([.InClusterConfig, .NewForConfig config], env.NewForConfig config)
    | .error _ =>
      match env.BuildConfigFromFlags "" kubeconfig with
      | .error err => ([.InClusterConfig, .BuildConfigFromFlags "" kubeconfig], .error err)
      | .ok config =>
        ([.InClusterConfig, .BuildConfigFromFlags "" kubeconfig, .NewForConfig config],
          env.NewForConfig config)

/-- `main.go:107-113`, the loop over the rules of one resource: every rule appends one
`Ingress` to `ingresses`. -/
def rulesLoop (nsName ingName : GoString) : List IngressRule → Ingresses → Ingresses
  | [], ingresses => ingresses
  | rule :: rest, ingresses =>
    rulesLoop nsName ingName rest
      (ingresses ++ [{ namespace_ := nsName, name := ingName, host := rule.Host }])

/-- `main.go:106-114`, the loop over the resources of one namespace. -/
def itemsLoop (nsName : GoString) : List V1beta1Ingress → Ingresses → Ingresses
  | [], ingresses => ingresses
  | ing :: rest, ingresses =>
    itemsLoop nsName rest (rulesLoop nsName ing.Name ing.Spec.Rules ingresses)

/-- `main.go:100-115`, the loop over the namespaces: a failed listing panics. -/
def namespacesLoop (client : Clientset) : List Namespace → Ingresses → Outcome Ingresses
  | [], ingresses => .returned ingresses
  | ns :: rest, ingresses =>
    match client.listIngresses ns.Name with
    | .error err => .panicked err
    | .ok ings => namespacesLoop client rest (itemsLoop ns.Name ings.Items ingresses)

/-- `main.go:90-117`, `getIngresses`. -/
def getIngresses (client : Clientset) : Outcome Ingresses :=
  match client.listNamespaces with
  | .error err => .panicked err
  | .ok namespaces => namespacesLoop client namespaces.Items []

/-- `main.go:120`, the URL `fmt.Sprintf("http://%s/readyz", ingress.host)`. -/
def readyzURL (ingress : Ingress) : GoString :=
  utf8 "http://" ++ ingress.host ++ utf8 "/readyz"

/-- `main.go:119-129`, `getReadyz`: given the requests issued so far, the returned
quadruple and the requests issued after the call. -/
def getReadyz (http : HTTP) (requests : List GoString) (ingress : Ingress) :
    (GoString × GoString × GoString × Int) × List GoString :=
  match http.Get requests.length (readyzURL ingress) with
  | .error _ =>
    ((ingress.namespace_, ingress.name, ingress.host, 0), requests ++ [readyzURL ingress])
  | .ok resp =>
    if resp.StatusCode > 299 then
      ((ingress.namespace_, ingress.name, ingress.host, 0), requests ++ [readyzURL ingress])
    else
      ((ingress.namespace_, ingress.name, ingress.host, 1), requests ++ [readyzURL ingress])

/-- What one call of `Exporter.Collect` did: the metrics sent on the channel, the HTTP
requests issued, and how the call ended. -/
structure Scrape where
  ch : List Metric
  requests : List GoString
  outcome : Outcome Unit
  deriving DecidableEq, Repr

/-- `main.go:63-66`, the loop of `Collect` over the discovered hosts. -/
def collectLoop (e : Exporter) (http : HTTP) :
    List Ingress → List Metric → List GoString → Scrape
  | [], ch, requests => { ch := ch, requests := requests, outcome := .returned () }
  | ingress :: rest, ch, requests =>
    match getReadyz http requests ingress with
    | ((ns, name, host, status), requests') =>
      match MustNewConstMetric e.up .GaugeValue status [ns, name, host] with
      | .panicked err => { ch := ch, requests := requests', outcome := .panicked err }
      | .returned m => collectLoop e http rest (ch ++ [m]) requests'

/-- `main.go:57-67`, `Exporter.Collect`. -/
def Exporter.Collect (e : Exporter) (env : Env) : Scrape :=
  match (k8s env "~/.kube/config").2 with
  | .error err => { ch := [], requests := [], outcome := .panicked err }
  | .ok client =>
    match getIngresses client with
    | .panicked err => { ch := [], requests := [], outcome := .panicked err }
    | .returned ingresses => collectLoop e env.http ingresses [] []

/-! ## Specification-side definitions -/

/-- Spec §4.1 step 3: the triple of one routing rule. -/
def tripleOf (ns : Namespace) (ing : V1beta1Ingress) (rule : IngressRule) : Ingress :=
  { namespace_ := ns.Name, name := ing.Name, host := rule.Host }

/-- Spec §4.1: the flat list of triples, one per rule, namespace by namespace, resource by
resource, rule by rule; `ings` gives the resources listed for a namespace name. -/
def discovered (namespaces : NamespaceList) (ings : GoString → IngressList) : List Ingress :=
  namespaces.Items.flatMap fun ns =>
    (ings ns.Name).Items.flatMap fun ing => ing.Spec.Rules.map (tripleOf ns ing)

/-- Spec §4.2 step 2: the outcome classification of one probe result. -/
def specOutcome : Except Error Response → Int
  | .error _ => 0
  | .ok resp => if resp.StatusCode ≤ 299 then 1 else 0

/-- Spec §4.2, emission: the observation of one host for one probe result. -/
def observation (ingress : Ingress) (probe : Except Error Response) : Metric :=
  { desc := NewExporter.up, valType := .GaugeValue, val := specOutcome probe,
    labelValues := [ingress.namespace_, ingress.name, ingress.host] }

/-- Spec §4.2: the observations of a list of hosts, the first of which is probed by
request number `n`. -/
def observations (http : HTTP) : Nat → List Ingress → List Metric
  | _, [] => []
  | n, ingress :: rest =>
    observation ingress (http.Get n (readyzURL ingress)) :: observations http (n + 1) rest

/-- The three label values of a host are valid UTF-8. -/
def validLabels (ingress : Ingress) : Bool :=
  ValidString ingress.namespace_ && ValidString ingress.name && ValidString ingress.host

/-- The first label value of a host, in the order namespace, name, host, that is not valid
UTF-8. -/
def firstInvalidLabel (ingress : Ingress) : Option GoString :=
  [ingress.namespace_, ingress.name, ingress.host].find? (fun val => !ValidString val)

/-- Every listing call of a scrape succeeds: the namespace listing gives `namespaces` and
the listing of each listed namespace gives `ings` of its name. -/
def ListingSucceeds (client : Clientset) (namespaces : NamespaceList)
    (ings : GoString → IngressList) : Prop :=
  client.listNamespaces = .ok namespaces ∧
    ∀ ns ∈ namespaces.Items, client.listIngresses ns.Name = .ok (ings ns.Name)

/-- Some listing call of a scrape fails with error `e`: the namespace listing, or the
listing of one of the listed namespaces. -/
def ListingFails (client : Clientset) (e : Error) : Prop :=
  client.listNamespaces = .error e ∨
    ∃ namespaces, client.listNamespaces = .ok namespaces ∧
      ∃ ns ∈ namespaces.Items, client.listIngresses ns.Name = .error e

/-- The listing call that fails first fails with error `e`: the namespace listing, or the
listing of a listed namespace before which every listed namespace was listed
successfully. -/
def FirstListingError (client : Clientset) (e : Error) : Prop :=
  client.listNamespaces = .error e ∨
    ∃ namespaces, client.listNamespaces = .ok namespaces ∧
      ∃ pre ns post, namespaces.Items = pre ++ ns :: post ∧
        (∀ n ∈ pre, ∃ il, client.listIngresses n.Name = .ok il) ∧
        client.listIngresses ns.Name = .error e

/-- The number of routing rules of a cluster, empty hosts included. -/
def ruleCount (namespaces : NamespaceList) (ings : GoString → IngressList) : Nat :=
  (namespaces.Items.map fun ns =>
    ((ings ns.Name).Items.map fun ing => ing.Spec.Rules.length).sum).sum

/-! ## Concrete clusters and environments -/

/-- An environment without `KUBECONFIG_CONTENT` whose in-cluster credential gives a client
for the cluster `client`, with the probe answers `http`. -/
def envInCluster (client : Clientset) (http : HTTP) : Env :=
  { KUBECONFIG_CONTENT := ""
    RESTConfigFromKubeConfig := fun _ => .error (.msg "empty kubeconfig content")
    InClusterConfig := .ok ⟨"in-cluster"⟩
    BuildConfigFromFlags := fun _ _ => .error (.msg "no kubeconfig file")
    NewForConfig := fun _ => .ok client
    http := http }

/-- Namespace `ns1` with the one resource `svc1` routing `a.example.com` and
`b.example.com`. -/
def clusterSvc1 : Clientset :=
  { listNamespaces := .ok ⟨[⟨utf8 "ns1"⟩]⟩
    listIngresses := fun _ => .ok ⟨[⟨utf8 "svc1", ⟨[⟨utf8 "a.example.com"⟩, ⟨utf8 "b.example.com"⟩]⟩⟩]⟩ }

/-- The resources listed in `clusterSvc1`. -/
def ingsSvc1 : GoString → IngressList :=
  fun _ => ⟨[⟨utf8 "svc1", ⟨[⟨utf8 "a.example.com"⟩, ⟨utf8 "b.example.com"⟩]⟩⟩]⟩

/-- Probe answers: `a.example.com` answers 200, every other host is unreachable. -/
def httpOnlyA : HTTP :=
  { Get := fun _ url =>
      if url = (utf8 "http://a.example.com/readyz") then .ok ⟨200⟩ else .error (.msg "connection refused") }

/-- Probe answers: every host answers 200. -/
def httpAllUp : HTTP :=
  { Get := fun _ _ => .ok ⟨200⟩ }

/-- Namespace `ns1` with the one resource `svc1` whose only rule has no host. -/
def clusterEmptyHost : Clientset :=
  { listNamespaces := .ok ⟨[⟨utf8 "ns1"⟩]⟩
    listIngresses := fun _ => .ok ⟨[⟨utf8 "svc1", ⟨[⟨utf8 ""⟩]⟩⟩]⟩ }

/-- A cluster whose namespace listing fails. -/
def clusterNamespacesFail : Clientset :=
  { listNamespaces := .error (.msg "namespaces is forbidden")
    listIngresses := fun _ => .ok ⟨[]⟩ }

/-- Namespaces `ns1` and `ns2`: `ns1` lists `svc1` with host `a.example.com`, the listing
of `ns2` fails. -/
def clusterSecondFails : Clientset :=
  { listNamespaces := .ok ⟨[⟨utf8 "ns1"⟩, ⟨utf8 "ns2"⟩]⟩
    listIngresses := fun ns =>
      if ns = (utf8 "ns1") then .ok ⟨[⟨utf8 "svc1", ⟨[⟨utf8 "a.example.com"⟩]⟩⟩]⟩
      else .error (.msg "ingresses is forbidden") }

/-- Namespaces `ns1` and `ns2`, the listings of both of which fail, with different
errors. -/
def clusterBothFail : Clientset :=
  { listNamespaces := .ok ⟨[⟨utf8 "ns1"⟩, ⟨utf8 "ns2"⟩]⟩
    listIngresses := fun ns =>
      if ns = utf8 "ns1" then .error (.msg "first failed") else .error (.msg "second failed") }

/-- Namespace `ns1` with the one resource `svc1` routing three hosts, the second of which
is the single byte `0xFF`, which is not valid UTF-8. -/
def clusterInvalidHost : Clientset :=
  { listNamespaces := .ok ⟨[⟨utf8 "ns1"⟩]⟩
    listIngresses := fun _ =>
      .ok ⟨[⟨utf8 "svc1", ⟨[⟨utf8 "a.example.com"⟩, ⟨[0xFF]⟩, ⟨utf8 "b.example.com"⟩]⟩⟩]⟩ }

/-- An environment in which all three credential sources would succeed. -/
def envAllSources : Env :=
  { KUBECONFIG_CONTENT := "apiVersion: v1"
    RESTConfigFromKubeConfig := fun _ => .ok ⟨"content"⟩
    InClusterConfig := .ok ⟨"in-cluster"⟩
    BuildConfigFromFlags := fun _ _ => .ok ⟨"file"⟩
    NewForConfig := fun _ => .ok clusterSvc1
    http := httpAllUp }

/-- An environment whose `KUBECONFIG_CONTENT` does not parse while the in-cluster
credential and the config file would both succeed. -/
def envBadContent : Env :=
  { KUBECONFIG_CONTENT := "not a kubeconfig"
    RESTConfigFromKubeConfig := fun _ => .error (.msg "cannot parse kubeconfig")
    InClusterConfig := .ok ⟨"in-cluster"⟩
    BuildConfigFromFlags := fun _ _ => .ok ⟨"file"⟩
    NewForConfig := fun _ => .ok clusterSvc1
    http := httpAllUp }

/-! ## Discovery: lemmas -/

theorem rulesLoop_eq (nsName ingName : GoString) (rules : List IngressRule) (acc : Ingresses) :
    rulesLoop nsName ingName rules acc
      = acc ++ rules.map (fun rule => ⟨nsName, ingName, rule.Host⟩) := by
  induction rules generalizing acc with
  | nil => simp [rulesLoop]
  | cons rule rest ih => simp [rulesLoop, ih]

theorem itemsLoop_eq (nsName : GoString) (items : List V1beta1Ingress) (acc : Ingresses) :
    itemsLoop nsName items acc
      = acc ++ items.flatMap
          (fun ing => ing.Spec.Rules.map (fun rule => ⟨nsName, ing.Name, rule.Host⟩)) := by
  induction items generalizing acc with
  | nil => simp [itemsLoop]
  | cons ing rest ih => simp [itemsLoop, ih, rulesLoop_eq]

theorem namespacesLoop_ok (client : Clientset) (ings : GoString → IngressList)
    (l : List Namespace) (acc : Ingresses)
    (h : ∀ ns ∈ l, client.listIngresses ns.Name = .ok (ings ns.Name)) :
    namespacesLoop client l acc
      = .returned (acc ++ l.flatMap fun ns =>
          (ings ns.Name).Items.flatMap fun ing => ing.Spec.Rules.map (tripleOf ns ing)) := by
  induction l generalizing acc with
  | nil => simp [namespacesLoop]
  | cons ns rest ih =>
    have h1 : client.listIngresses ns.Name = .ok (ings ns.Name) := h ns (by simp)
    have h2 : ∀ n ∈ rest, client.listIngresses n.Name = .ok (ings n.Name) :=
      fun n hn => h n (by simp [hn])
    simp only [namespacesLoop, h1, ih _ h2, itemsLoop_eq]
    simp [tripleOf]
    rfl

theorem namespacesLoop_fail (client : Clientset) (l : List Namespace) (acc : Ingresses)
    (h : ∃ ns ∈ l, ∃ e, client.listIngresses ns.Name = .error e) :
    ∃ e, namespacesLoop client l acc = .panicked e ∧
      ∃ ns ∈ l, client.listIngresses ns.Name = .error e := by
  induction l generalizing acc with
  | nil => simp at h
  | cons ns rest ih =>
    cases hns : client.listIngresses ns.Name with
    | error err => exact ⟨err, by simp [namespacesLoop, hns], ns, by simp, hns⟩
    | ok il =>
      have hrest : ∃ n ∈ rest, ∃ e, client.listIngresses n.Name = .error e := by
        obtain ⟨n, hn, e, he⟩ := h
        rcases List.mem_cons.mp hn with rfl | hn
        · rw [hns] at he; cases he
        · exact ⟨n, hn, e, he⟩
      obtain ⟨e, he, n, hn, hne⟩ := ih (itemsLoop ns.Name il.Items acc) hrest
      exact ⟨e, by simp [namespacesLoop, hns, he], n, by simp [hn], hne⟩

theorem getIngresses_eq (client : Clientset) (namespaces : NamespaceList)
    (ings : GoString → IngressList) (h : ListingSucceeds client namespaces ings) :
    getIngresses client = .returned (discovered namespaces ings) := by
  simp [getIngresses, h.1, namespacesLoop_ok client ings _ _ h.2, discovered]

theorem getIngresses_fail (client : Clientset) (h : ∃ e, ListingFails client e) :
    ∃ e, getIngresses client = .panicked e ∧ ListingFails client e := by
  obtain ⟨e, h | ⟨namespaces, hns, ns, hmem, he⟩⟩ := h
  · exact ⟨e, by simp [getIngresses, h], Or.inl h⟩
  · obtain ⟨e', hp, n, hn, hne⟩ :=
      namespacesLoop_fail client namespaces.Items [] ⟨ns, hmem, e, he⟩
    exact ⟨e', by simp [getIngresses, hns, hp], Or.inr ⟨namespaces, hns, n, hn, hne⟩⟩

theorem namespacesLoop_first_fail (client : Clientset) (pre : List Namespace)
    (ns : Namespace) (post : List Namespace) (acc : Ingresses) (e : Error)
    (hpre : ∀ n ∈ pre, ∃ il, client.listIngresses n.Name = .ok il)
    (hns : client.listIngresses ns.Name = .error e) :
    namespacesLoop client (pre ++ ns :: post) acc = .panicked e := by
  induction pre generalizing acc with
  | nil => simp [namespacesLoop, hns]
  | cons n rest ih =>
    obtain ⟨il, hil⟩ := hpre n (by simp)
    simp only [List.cons_append, namespacesLoop, hil]
    exact ih _ (fun m hm => hpre m (by simp [hm]))

theorem exists_first_failing (client : Clientset) (l : List Namespace)
    (h : ∃ ns ∈ l, ∃ e, client.listIngresses ns.Name = .error e) :
    ∃ pre ns post e, l = pre ++ ns :: post ∧
      (∀ n ∈ pre, ∃ il, client.listIngresses n.Name = .ok il) ∧
      client.listIngresses ns.Name = .error e := by
  induction l with
  | nil => simp at h
  | cons n rest ih =>
    cases hn : client.listIngresses n.Name with
    | error err => exact ⟨[], n, rest, err, rfl, by simp, hn⟩
    | ok il =>
      have hrest : ∃ ns ∈ rest, ∃ e, client.listIngresses ns.Name = .error e := by
        obtain ⟨ns, hmem, e, he⟩ := h
        rcases List.mem_cons.mp hmem with rfl | hmem
        · rw [hn] at he; cases he
        · exact ⟨ns, hmem, e, he⟩
      obtain ⟨pre, ns, post, e, hsplit, hpre, he⟩ := ih hrest
      refine ⟨n :: pre, ns, post, e, by simp [hsplit], ?_, he⟩
      intro m hm
      rcases List.mem_cons.mp hm with rfl | hm
      · exact ⟨il, hn⟩
      · exact hpre m hm

theorem getIngresses_first_error (client : Clientset) (e : Error)
    (h : FirstListingError client e) : getIngresses client = .panicked e := by
  rcases h with h | ⟨namespaces, hns, pre, ns, post, hsplit, hpre, he⟩
  · simp [getIngresses, h]
  · simp [getIngresses, hns, hsplit, namespacesLoop_first_fail client pre ns post [] e hpre he]

theorem exists_firstListingError (client : Clientset) (h : ∃ e, ListingFails client e) :
    ∃ e, FirstListingError client e := by
  obtain ⟨e, h | ⟨namespaces, hns, ns, hmem, he⟩⟩ := h
  · exact ⟨e, Or.inl h⟩
  · obtain ⟨pre, n, post, e', hsplit, hpre, he'⟩ :=
      exists_first_failing client namespaces.Items ⟨ns, hmem, e, he⟩
    exact ⟨e', Or.inr ⟨namespaces, hns, pre, n, post, hsplit, hpre, he'⟩⟩

/-! ## Probing and emission: lemmas -/

theorem up_eq :
    NewExporter.up =
      { fqName := "service_ready_up", help := "Ready check is ok.",
        variableLabels := ["namespace", "name", "host"], err := none } := by
  decide

theorem getReadyz_eq (http : HTTP) (requests : List GoString) (ingress : Ingress) :
    getReadyz http requests ingress
      = ((ingress.namespace_, ingress.name, ingress.host,
            specOutcome (http.Get requests.length (readyzURL ingress))),
          requests ++ [readyzURL ingress]) := by
  unfold getReadyz specOutcome
  cases http.Get requests.length (readyzURL ingress) with
  | error e => rfl
  | ok resp =>
    by_cases h : resp.StatusCode > 299
    · have h' : ¬ resp.StatusCode ≤ 299 := by omega
      simp [h, h']
    · have h' : resp.StatusCode ≤ 299 := by omega
      simp [h, h']

theorem firstInvalidLabel_eq_none (ingress : Ingress) (h : validLabels ingress = true) :
    firstInvalidLabel ingress = none := by
  simp only [validLabels, Bool.and_eq_true] at h
  simp [firstInvalidLabel, List.find?, h.1.1, h.1.2, h.2]

theorem firstInvalidLabel_eq_some (ingress : Ingress) (h : validLabels ingress = false) :
    ∃ val, firstInvalidLabel ingress = some val ∧ ValidString val = false ∧
      val ∈ [ingress.namespace_, ingress.name, ingress.host] := by
  unfold firstInvalidLabel
  cases hf : [ingress.namespace_, ingress.name, ingress.host].find?
      (fun val => !ValidString val) with
  | none =>
    have hall := List.find?_eq_none.mp hf
    have h1 := hall ingress.namespace_ (by simp)
    have h2 := hall ingress.name (by simp)
    have h3 := hall ingress.host (by simp)
    simp at h1 h2 h3
    simp [validLabels, h1, h2, h3] at h
  | some val =>
    have hp := List.find?_some hf
    have hm := List.mem_of_find?_eq_some hf
    exact ⟨val, rfl, by simpa using hp, hm⟩

theorem mustNewConstMetric_up (status : Int) (ingress : Ingress) :
    MustNewConstMetric NewExporter.up .GaugeValue status
        [ingress.namespace_, ingress.name, ingress.host]
      = match firstInvalidLabel ingress with
        | some val => .panicked (.labelValueNotValidUTF8 val)
        | none =>
          .returned
            { desc := NewExporter.up, valType := .GaugeValue, val := status,
              labelValues := [ingress.namespace_, ingress.name, ingress.host] } := by
  rw [up_eq]
  rfl

theorem mustNewConstMetric_up_valid (status : Int) (ingress : Ingress)
    (h : validLabels ingress = true) :
    MustNewConstMetric NewExporter.up .GaugeValue status
        [ingress.namespace_, ingress.name, ingress.host]
      = .returned
          { desc := NewExporter.up, valType := .GaugeValue, val := status,
            labelValues := [ingress.namespace_, ingress.name, ingress.host] } := by
  rw [mustNewConstMetric_up, firstInvalidLabel_eq_none ingress h]

theorem collectLoop_eq (http : HTTP) (l : List Ingress) (ch : List Metric)
    (requests : List GoString) (hvalid : ∀ ingress ∈ l, validLabels ingress = true) :
    collectLoop NewExporter http l ch requests
      = { ch := ch ++ observations http requests.length l,
          requests := requests ++ l.map readyzURL,
          outcome := .returned () } := by
  induction l generalizing ch requests with
  | nil => simp [collectLoop, observations]
  | cons ingress rest ih =>
    have h1 : validLabels ingress = true := hvalid ingress (by simp)
    have h2 : ∀ i ∈ rest, validLabels i = true := fun i hi => hvalid i (by simp [hi])
    simp only [collectLoop, getReadyz_eq, mustNewConstMetric_up_valid _ _ h1, ih _ _ h2]
    simp [observations, observation]

theorem collectLoop_ch (http : HTTP) (l : List Ingress) (ch : List Metric)
    (requests : List GoString) :
    (collectLoop NewExporter http l ch requests).ch
      = ch ++ observations http requests.length (l.takeWhile validLabels) := by
  induction l generalizing ch requests with
  | nil => simp [collectLoop, observations]
  | cons ingress rest ih =>
    cases h1 : validLabels ingress with
    | true =>
      simp only [collectLoop, getReadyz_eq, mustNewConstMetric_up_valid _ _ h1, ih,
        List.takeWhile_cons, h1]
      simp [observations, observation]
    | false =>
      obtain ⟨val, hval, -, -⟩ := firstInvalidLabel_eq_some ingress h1
      simp [collectLoop, getReadyz_eq, mustNewConstMetric_up, hval, List.takeWhile_cons, h1,
        observations]

theorem collectLoop_outcome_invalid (http : HTTP) (l : List Ingress) (ch : List Metric)
    (requests : List GoString) (bad : Ingress) (val : GoString)
    (hbad : l.find? (fun ingress => !validLabels ingress) = some bad)
    (hval : firstInvalidLabel bad = some val) :
    (collectLoop NewExporter http l ch requests).outcome
      = .panicked (.labelValueNotValidUTF8 val) := by
  induction l generalizing ch requests with
  | nil => simp at hbad
  | cons ingress rest ih =>
    cases h1 : validLabels ingress with
    | true =>
      simp only [List.find?_cons, h1, Bool.not_true] at hbad
      simp only [collectLoop, getReadyz_eq, mustNewConstMetric_up_valid _ _ h1]
      exact ih _ _ hbad
    | false =>
      simp only [List.find?_cons, h1, Bool.not_false, Option.some.injEq] at hbad
      subst hbad
      simp [collectLoop, getReadyz_eq, mustNewConstMetric_up, hval]

theorem takeWhile_validLabels_length_lt (l : List Ingress) (bad : Ingress)
    (hbad : l.find? (fun ingress => !validLabels ingress) = some bad) :
    (l.takeWhile validLabels).length < l.length := by
  induction l with
  | nil => simp at hbad
  | cons ingress rest ih =>
    cases h1 : validLabels ingress with
    | true =>
      simp only [List.find?_cons, h1, Bool.not_true] at hbad
      simpa [List.takeWhile_cons, h1] using ih hbad
    | false => simp [List.takeWhile_cons, h1]

theorem takeWhile_validLabels_eq (l : List Ingress)
    (hvalid : ∀ ingress ∈ l, validLabels ingress = true) :
    l.takeWhile validLabels = l := by
  induction l with
  | nil => rfl
  | cons ingress rest ih =>
    have h1 : validLabels ingress = true := hvalid ingress (by simp)
    simp [List.takeWhile_cons, h1, ih (fun i hi => hvalid i (by simp [hi]))]

theorem observations_length (http : HTTP) (n : Nat) (l : List Ingress) :
    (observations http n l).length = l.length := by
  induction l generalizing n with
  | nil => rfl
  | cons ingress rest ih => simp [observations, ih]

theorem observations_getElem? (http : HTTP) (n : Nat) (l : List Ingress) (i : Nat) :
    (observations http n l)[i]?
      = l[i]?.map (fun ingress => observation ingress (http.Get (n + i) (readyzURL ingress))) := by
  induction l generalizing n i with
  | nil => simp [observations]
  | cons ingress rest ih =>
    cases i with
    | zero => simp [observations]
    | succ j =>
      simp only [observations, List.getElem?_cons_succ, ih]
      have : n + 1 + j = n + (j + 1) := by omega
      rw [this]

theorem mem_observations (http : HTTP) (n : Nat) (l : List Ingress) (m : Metric)
    (h : m ∈ observations http n l) :
    ∃ ingress ∈ l, ∃ probe, m = observation ingress probe := by
  induction l generalizing n with
  | nil => simp [observations] at h
  | cons ingress rest ih =>
    simp only [observations, List.mem_cons] at h
    rcases h with h | h
    · exact ⟨ingress, by simp, _, h⟩
    · obtain ⟨ing, hing, probe, hp⟩ := ih _ h
      exact ⟨ing, by simp [hing], probe, hp⟩

theorem specOutcome_zero_or_one (probe : Except Error Response) :
    specOutcome probe = 0 ∨ specOutcome probe = 1 := by
  unfold specOutcome
  cases probe with
  | error e => simp
  | ok resp => by_cases h : resp.StatusCode ≤ 299 <;> simp [h]

theorem collect_eq (env : Env) (client : Clientset) (l : List Ingress)
    (hk : (k8s env "~/.kube/config").2 = .ok client)
    (hl : getIngresses client = .returned l)
    (hvalid : ∀ ingress ∈ l, validLabels ingress = true) :
    NewExporter.Collect env
      = { ch := observations env.http 0 l, requests := l.map readyzURL,
          outcome := .returned () } := by
  simp [Exporter.Collect, hk, hl, collectLoop_eq _ _ _ _ hvalid]

theorem collect_ch (env : Env) (client : Clientset) (l : List Ingress)
    (hk : (k8s env "~/.kube/config").2 = .ok client)
    (hl : getIngresses client = .returned l) :
    (NewExporter.Collect env).ch = observations env.http 0 (l.takeWhile validLabels) := by
  simp [Exporter.Collect, hk, hl, collectLoop_ch]

theorem collect_outcome_invalid (env : Env) (client : Clientset) (l : List Ingress)
    (bad : Ingress) (val : GoString)
    (hk : (k8s env "~/.kube/config").2 = .ok client)
    (hl : getIngresses client = .returned l)
    (hbad : l.find? (fun ingress => !validLabels ingress) = some bad)
    (hval : firstInvalidLabel bad = some val) :
    (NewExporter.Collect env).outcome = .panicked (.labelValueNotValidUTF8 val) := by
  simp [Exporter.Collect, hk, hl, collectLoop_outcome_invalid _ _ _ _ bad val hbad hval]

theorem collect_discovery_panics (env : Env) (client : Clientset) (e : Error)
    (hk : (k8s env "~/.kube/config").2 = .ok client)
    (hl : getIngresses client = .panicked e) :
    NewExporter.Collect env = { ch := [], requests := [], outcome := .panicked e } := by
  simp [Exporter.Collect, hk, hl]

/-! ## Discovery: claims C4, C5 -/

theorem discovered_length (namespaces : NamespaceList) (ings : GoString → IngressList) :
    (discovered namespaces ings).length = ruleCount namespaces ings := by
  simp [discovered, ruleCount, List.length_flatMap, Function.comp_def]

theorem mem_discovered (namespaces : NamespaceList) (ings : GoString → IngressList)
    (t : Ingress) :
    t ∈ discovered namespaces ings ↔
      ∃ ns ∈ namespaces.Items, ∃ ing ∈ (ings ns.Name).Items, ∃ rule ∈ ing.Spec.Rules,
        tripleOf ns ing rule = t := by
  simp [discovered]

/-- C4: when every listing call succeeds, `getIngresses` returns exactly one triple per
rule, namespace by namespace, resource by resource, in rule order and without merging,
each carrying the namespace's name, the resource's name and the rule's host; `svc1` in
`ns1` with rules for `a.example.com` and `b.example.com` gives exactly the two triples;
namespaces without resources and resources without rules give no triple. -/
theorem getIngresses_one_triple_per_rule (client : Clientset) (namespaces : NamespaceList)
    (ings : GoString → IngressList) (h : ListingSucceeds client namespaces ings) :
    getIngresses client = .returned (discovered namespaces ings) ∧
    (namespaces = ⟨[⟨utf8 "ns1"⟩]⟩ →
      ings (utf8 "ns1") = ⟨[⟨utf8 "svc1", ⟨[⟨utf8 "a.example.com"⟩, ⟨utf8 "b.example.com"⟩]⟩⟩]⟩ →
      getIngresses client
        = .returned [⟨utf8 "ns1", utf8 "svc1", utf8 "a.example.com"⟩, ⟨utf8 "ns1", utf8 "svc1", utf8 "b.example.com"⟩]) ∧
    ((∀ ns ∈ namespaces.Items, ∀ ing ∈ (ings ns.Name).Items, ing.Spec.Rules = []) →
      getIngresses client = .returned []) := by
  refine ⟨getIngresses_eq client namespaces ings h, ?_, ?_⟩
  · intro hn hi
    rw [getIngresses_eq client namespaces ings h, hn]
    simp [discovered, hi, tripleOf]
  · intro hempty
    rw [getIngresses_eq client namespaces ings h]
    congr 1
    apply List.eq_nil_iff_forall_not_mem.mpr
    intro t ht
    obtain ⟨ns, hns, ing, hing, rule, hrule, -⟩ := (mem_discovered namespaces ings t).mp ht
    rw [hempty ns hns ing hing] at hrule
    simp at hrule

theorem getIngresses_one_triple_per_rule_witness :
    ListingSucceeds clusterSvc1 ⟨[⟨utf8 "ns1"⟩]⟩ ingsSvc1 ∧
    getIngresses clusterSvc1
      = .returned [⟨utf8 "ns1", utf8 "svc1", utf8 "a.example.com"⟩, ⟨utf8 "ns1", utf8 "svc1", utf8 "b.example.com"⟩] :=
  ⟨⟨rfl, fun _ _ => rfl⟩,
    (getIngresses_one_triple_per_rule clusterSvc1 ⟨[⟨utf8 "ns1"⟩]⟩ ingsSvc1
      ⟨rfl, fun _ _ => rfl⟩).2.1 rfl rfl⟩

/-- C5, as stated, fails: in a cluster whose only rule has an empty host every listing
succeeds, and `getIngresses` returns one triple, with an empty host, although no rule has
a non-empty host. -/
theorem getIngresses_empty_host_not_skipped :
    ListingSucceeds clusterEmptyHost ⟨[⟨utf8 "ns1"⟩]⟩ (fun _ => ⟨[⟨utf8 "svc1", ⟨[⟨utf8 ""⟩]⟩⟩]⟩) ∧
    getIngresses clusterEmptyHost = .returned [⟨utf8 "ns1", utf8 "svc1", utf8 ""⟩] ∧
    (∃ t ∈ [(⟨utf8 "ns1", utf8 "svc1", utf8 ""⟩ : Ingress)], t.host = utf8 "") ∧
    [(⟨utf8 "ns1", utf8 "svc1", utf8 ""⟩ : Ingress)].length
      ≠ (([⟨utf8 ""⟩] : List IngressRule).filter (fun rule => rule.Host ≠ utf8 "")).length :=
  ⟨⟨rfl, fun _ _ => rfl⟩, rfl, ⟨_, List.mem_singleton.mpr rfl, rfl⟩, by decide⟩

/-- C5, amended: when every listing call succeeds, `getIngresses` skips no rule: it
returns one triple for every rule, whether the rule's host is empty or not, so the number
of triples is the number of rules, every rule's triple is returned with the rule's host
unchanged, and a triple with an empty host is returned exactly when some rule has an
empty host. -/
theorem getIngresses_keeps_every_rule (client : Clientset) (namespaces : NamespaceList)
    (ings : GoString → IngressList) (h : ListingSucceeds client namespaces ings) :
    ∃ l, getIngresses client = .returned l ∧
      l.length = ruleCount namespaces ings ∧
      (∀ ns ∈ namespaces.Items, ∀ ing ∈ (ings ns.Name).Items, ∀ rule ∈ ing.Spec.Rules,
        (⟨ns.Name, ing.Name, rule.Host⟩ : Ingress) ∈ l) ∧
      ((∃ t ∈ l, t.host = utf8 "") ↔
        ∃ ns ∈ namespaces.Items, ∃ ing ∈ (ings ns.Name).Items, ∃ rule ∈ ing.Spec.Rules,
          rule.Host = utf8 "") := by
  refine ⟨_, getIngresses_eq client namespaces ings h, discovered_length _ _, ?_, ?_⟩
  · intro ns hns ing hing rule hrule
    exact (mem_discovered namespaces ings _).mpr ⟨ns, hns, ing, hing, rule, hrule, rfl⟩
  · constructor
    · rintro ⟨t, ht, hhost⟩
      obtain ⟨ns, hns, ing, hing, rule, hrule, rfl⟩ := (mem_discovered _ _ t).mp ht
      exact ⟨ns, hns, ing, hing, rule, hrule, hhost⟩
    · rintro ⟨ns, hns, ing, hing, rule, hrule, hhost⟩
      exact ⟨tripleOf ns ing rule,
        (mem_discovered _ _ _).mpr ⟨ns, hns, ing, hing, rule, hrule, rfl⟩, hhost⟩

theorem getIngresses_keeps_every_rule_witness :
    ListingSucceeds clusterEmptyHost ⟨[⟨utf8 "ns1"⟩]⟩ (fun _ => ⟨[⟨utf8 "svc1", ⟨[⟨utf8 ""⟩]⟩⟩]⟩) ∧
    ∃ l, getIngresses clusterEmptyHost = .returned l ∧ l.length = 1 ∧
      ∃ t ∈ l, t.host = utf8 "" :=
  ⟨⟨rfl, fun _ _ => rfl⟩,
    match getIngresses_keeps_every_rule clusterEmptyHost ⟨[⟨utf8 "ns1"⟩]⟩
        (fun _ => ⟨[⟨utf8 "svc1", ⟨[⟨utf8 ""⟩]⟩⟩]⟩) ⟨rfl, fun _ _ => rfl⟩ with
    | ⟨l, hl, hlen, _, hiff⟩ =>
      ⟨l, hl, hlen, hiff.mpr ⟨⟨utf8 "ns1"⟩, by simp, ⟨utf8 "svc1", ⟨[⟨utf8 ""⟩]⟩⟩, by simp, ⟨utf8 ""⟩, by simp, rfl⟩⟩⟩

/-! ## Probing and emission: claims C1, C2, C3, C9 -/

theorem observations_labelValues (http : HTTP) (n : Nat) (l : List Ingress) :
    (observations http n l).map (fun m => m.labelValues)
      = l.map (fun ingress => [ingress.namespace_, ingress.name, ingress.host]) := by
  induction l generalizing n with
  | nil => rfl
  | cons ingress rest ih => simp [observations, observation, ih]

/-- C1, as stated, fails: in a cluster whose second of three discovered hosts is not valid
UTF-8, with every probe answering 200, `Collect` sends one metric for three discovered
hosts and ends by the panic of `MustNewConstMetric`. -/
theorem collect_fewer_metrics_than_hosts :
    (k8s (envInCluster clusterInvalidHost httpAllUp) "~/.kube/config").2
      = .ok clusterInvalidHost ∧
    getIngresses clusterInvalidHost
      = .returned [⟨utf8 "ns1", utf8 "svc1", utf8 "a.example.com"⟩,
          ⟨utf8 "ns1", utf8 "svc1", [0xFF]⟩,
          ⟨utf8 "ns1", utf8 "svc1", utf8 "b.example.com"⟩] ∧
    (NewExporter.Collect (envInCluster clusterInvalidHost httpAllUp)).ch.length = 1 ∧
    (NewExporter.Collect (envInCluster clusterInvalidHost httpAllUp)).ch.length ≠ 3 ∧
    (NewExporter.Collect (envInCluster clusterInvalidHost httpAllUp)).outcome
      = .panicked (.labelValueNotValidUTF8 [0xFF]) :=
  ⟨rfl, rfl, rfl, by decide, rfl⟩

/-- C1, amended: whatever list of hosts `getIngresses` returns and whatever the probes
answer, `Collect` sends exactly one metric, in order, for each discovered host that
precedes the first host with a namespace, name or host that is not valid UTF-8.  When the
label values of every discovered host are valid UTF-8 it returns normally having sent
exactly as many metrics as there are discovered hosts, with the hosts' label values in
order: no host is dropped and none is emitted twice, also when probes fail.  Otherwise it
ends by the panic of `MustNewConstMetric` at the first such host and sends fewer metrics
than there are hosts. -/
theorem collect_one_metric_per_valid_host (env : Env) (client : Clientset)
    (l : List Ingress)
    (hk : (k8s env "~/.kube/config").2 = .ok client)
    (hl : getIngresses client = .returned l) :
    (NewExporter.Collect env).ch.map (fun m => m.labelValues)
      = (l.takeWhile validLabels).map
          (fun ingress => [ingress.namespace_, ingress.name, ingress.host]) ∧
    ((∀ ingress ∈ l, validLabels ingress = true) →
      (NewExporter.Collect env).ch.length = l.length ∧
      (NewExporter.Collect env).ch.map (fun m => m.labelValues)
        = l.map (fun ingress => [ingress.namespace_, ingress.name, ingress.host]) ∧
      (NewExporter.Collect env).outcome = .returned ()) ∧
    (∀ bad val, l.find? (fun ingress => !validLabels ingress) = some bad →
      firstInvalidLabel bad = some val →
      (NewExporter.Collect env).ch.length < l.length ∧
      (NewExporter.Collect env).outcome = .panicked (.labelValueNotValidUTF8 val)) := by
  refine ⟨?_, ?_, ?_⟩
  · rw [collect_ch env client l hk hl]
    exact observations_labelValues _ _ _
  · intro hvalid
    rw [collect_eq env client l hk hl hvalid]
    exact ⟨observations_length _ _ _, observations_labelValues _ _ _, rfl⟩
  · intro bad val hbad hval
    refine ⟨?_, collect_outcome_invalid env client l bad val hk hl hbad hval⟩
    rw [collect_ch env client l hk hl, observations_length]
    exact takeWhile_validLabels_length_lt l bad hbad

theorem collect_one_metric_per_valid_host_witness :
    (k8s (envInCluster clusterSvc1 httpOnlyA) "~/.kube/config").2 = .ok clusterSvc1 ∧
    getIngresses clusterSvc1
      = .returned [⟨utf8 "ns1", utf8 "svc1", utf8 "a.example.com"⟩,
          ⟨utf8 "ns1", utf8 "svc1", utf8 "b.example.com"⟩] ∧
    (NewExporter.Collect (envInCluster clusterSvc1 httpOnlyA)).ch.length = 2 ∧
    (NewExporter.Collect (envInCluster clusterSvc1 httpOnlyA)).outcome = .returned () :=
  ⟨rfl, rfl,
    ((collect_one_metric_per_valid_host (envInCluster clusterSvc1 httpOnlyA) clusterSvc1
      [⟨utf8 "ns1", utf8 "svc1", utf8 "a.example.com"⟩,
        ⟨utf8 "ns1", utf8 "svc1", utf8 "b.example.com"⟩] rfl rfl).2.1 (by decide)).1,
    ((collect_one_metric_per_valid_host (envInCluster clusterSvc1 httpOnlyA) clusterSvc1
      [⟨utf8 "ns1", utf8 "svc1", utf8 "a.example.com"⟩,
        ⟨utf8 "ns1", utf8 "svc1", utf8 "b.example.com"⟩] rfl rfl).2.1 (by decide)).2.2⟩

/-- C2: `getReadyz` returns status 0 when the GET returns an error, status 1 when the
response's status code is at most 299 and status 0 when it is above 299; so 200 gives 1,
404 and 500 give 0, and the status is always 0 or 1. -/
theorem getReadyz_status (http : HTTP) (requests : List GoString) (ingress : Ingress) :
    (∀ e, http.Get requests.length (readyzURL ingress) = .error e →
      (getReadyz http requests ingress).1.2.2.2 = 0) ∧
    (∀ resp, http.Get requests.length (readyzURL ingress) = .ok resp →
      resp.StatusCode ≤ 299 → (getReadyz http requests ingress).1.2.2.2 = 1) ∧
    (∀ resp, http.Get requests.length (readyzURL ingress) = .ok resp →
      resp.StatusCode > 299 → (getReadyz http requests ingress).1.2.2.2 = 0) ∧
    (http.Get requests.length (readyzURL ingress) = .ok ⟨200⟩ →
      (getReadyz http requests ingress).1.2.2.2 = 1) ∧
    (http.Get requests.length (readyzURL ingress) = .ok ⟨404⟩ →
      (getReadyz http requests ingress).1.2.2.2 = 0) ∧
    (http.Get requests.length (readyzURL ingress) = .ok ⟨500⟩ →
      (getReadyz http requests ingress).1.2.2.2 = 0) ∧
    ((getReadyz http requests ingress).1.2.2.2 = 0 ∨
      (getReadyz http requests ingress).1.2.2.2 = 1) := by
  refine ⟨?_, ?_, ?_, ?_, ?_, ?_, ?_⟩
  · intro e h
    simp [getReadyz, h]
  · intro resp h hle
    have : ¬ resp.StatusCode > 299 := by omega
    simp [getReadyz, h, this]
  · intro resp h hgt
    simp [getReadyz, h, hgt]
  · intro h
    simp [getReadyz, h]
  · intro h
    simp [getReadyz, h]
  · intro h
    simp [getReadyz, h]
  · rw [getReadyz_eq]
    exact specOutcome_zero_or_one _

theorem getReadyz_status_witness :
    httpOnlyA.Get 0 (readyzURL ⟨utf8 "ns1", utf8 "svc1", utf8 "a.example.com"⟩) = .ok ⟨200⟩ ∧
    (getReadyz httpOnlyA [] ⟨utf8 "ns1", utf8 "svc1", utf8 "a.example.com"⟩).1.2.2.2 = 1 :=
  ⟨rfl, (getReadyz_status httpOnlyA [] ⟨utf8 "ns1", utf8 "svc1", utf8 "a.example.com"⟩).2.2.2.1 rfl⟩

/-- C3, as stated, fails: in a cluster whose second of three discovered hosts is not valid
UTF-8, with every probe answering 200, the third discovered host answers 200 and yet has
no observation: `Collect` sends nothing at index 2 (nor at index 1). -/
theorem collect_later_host_missing :
    (k8s (envInCluster clusterInvalidHost httpAllUp) "~/.kube/config").2
      = .ok clusterInvalidHost ∧
    getIngresses clusterInvalidHost
      = .returned [⟨utf8 "ns1", utf8 "svc1", utf8 "a.example.com"⟩,
          ⟨utf8 "ns1", utf8 "svc1", [0xFF]⟩,
          ⟨utf8 "ns1", utf8 "svc1", utf8 "b.example.com"⟩] ∧
    httpAllUp.Get 2 (readyzURL ⟨utf8 "ns1", utf8 "svc1", utf8 "b.example.com"⟩)
      = .ok ⟨200⟩ ∧
    (NewExporter.Collect (envInCluster clusterInvalidHost httpAllUp)).ch[2]? = none ∧
    (NewExporter.Collect (envInCluster clusterInvalidHost httpAllUp)).ch[1]? = none :=
  ⟨rfl, rfl, rfl, rfl, rfl⟩

/-- C3, amended: for each discovered host that precedes the first host with a namespace,
name or host that is not valid UTF-8 (for every discovered host when all label values are
valid UTF-8), the i-th metric sent by `Collect` carries the label values (namespace, name,
host) of the i-th discovered host unchanged and the classification of the result of that
host's own probe (request number i, to that host's URL); the hosts from the first such
host on have no observation.  The number of metrics sent is the same under every probe
behaviour, and the i-th metric is the same under every probe behaviour that answers this
one request alike, so a failed probe of one host changes neither the presence nor the
value of the observation of any other host.  For two hosts with valid UTF-8 label values
of which the first answers 200 and the second is unreachable, exactly two observations
are sent: value 1 with the first host's labels, value 0 with the second host's labels. -/
theorem collect_labels_and_values (env : Env) (client : Clientset) (l : List Ingress)
    (hk : (k8s env "~/.kube/config").2 = .ok client)
    (hl : getIngresses client = .returned l) :
    (∀ (i : Nat) (ingress : Ingress), (l.takeWhile validLabels)[i]? = some ingress →
      (NewExporter.Collect env).ch[i]?
        = some ({ desc := NewExporter.up, valType := .GaugeValue,
                  val := specOutcome (env.http.Get i (readyzURL ingress)),
                  labelValues := [ingress.namespace_, ingress.name, ingress.host] } : Metric)) ∧
    ((∀ ingress ∈ l, validLabels ingress = true) →
      ∀ (i : Nat) (ingress : Ingress), l[i]? = some ingress →
        (NewExporter.Collect env).ch[i]?
          = some ({ desc := NewExporter.up, valType := .GaugeValue,
                    val := specOutcome (env.http.Get i (readyzURL ingress)),
                    labelValues := [ingress.namespace_, ingress.name, ingress.host] } : Metric)) ∧
    (∀ (i : Nat), (l.takeWhile validLabels).length ≤ i →
      (NewExporter.Collect env).ch[i]? = none) ∧
    (∀ (http' : HTTP),
      (NewExporter.Collect { env with http := http' }).ch.length
        = (NewExporter.Collect env).ch.length) ∧
    (∀ (http' : HTTP) (i : Nat) (ingress : Ingress), l[i]? = some ingress →
      http'.Get i (readyzURL ingress) = env.http.Get i (readyzURL ingress) →
      (NewExporter.Collect { env with http := http' }).ch[i]?
        = (NewExporter.Collect env).ch[i]?) ∧
    (∀ (first second : Ingress) (e : Error), l = [first, second] →
      validLabels first = true → validLabels second = true →
      env.http.Get 0 (readyzURL first) = .ok ⟨200⟩ →
      env.http.Get 1 (readyzURL second) = .error e →
      (NewExporter.Collect env).ch
        = [{ desc := NewExporter.up, valType := .GaugeValue, val := 1,
             labelValues := [first.namespace_, first.name, first.host] },
           { desc := NewExporter.up, valType := .GaugeValue, val := 0,
             labelValues := [second.namespace_, second.name, second.host] }]) := by
  have hk' : ∀ http' : HTTP, (k8s { env with http := http' } "~/.kube/config").2 = .ok client :=
    fun _ => hk
  have hch := collect_ch env client l hk hl
  have hch' : ∀ http' : HTTP, (NewExporter.Collect { env with http := http' }).ch
      = observations http' 0 (l.takeWhile validLabels) :=
    fun http' => collect_ch _ client l (hk' http') hl
  refine ⟨?_, ?_, ?_, ?_, ?_, ?_⟩
  · intro i ingress hi
    rw [hch]
    simp [observations_getElem?, hi, observation]
  · intro hvalid i ingress hi
    rw [hch, takeWhile_validLabels_eq l hvalid]
    simp [observations_getElem?, hi, observation]
  · intro i hi
    rw [hch]
    exact List.getElem?_eq_none (by rw [observations_length]; exact hi)
  · intro http'
    rw [hch, hch' http', observations_length, observations_length]
  · intro http' i ingress hi hget
    rw [hch, hch' http', observations_getElem?, observations_getElem?]
    cases ht : (l.takeWhile validLabels)[i]? with
    | none => rfl
    | some t =>
      have hpre : (l.takeWhile validLabels) <+: l := List.takeWhile_prefix _
      obtain ⟨post, hpost⟩ := hpre
      have hlt : i < (l.takeWhile validLabels).length := by
        rcases Nat.lt_or_ge i (l.takeWhile validLabels).length with h | h
        · exact h
        · rw [List.getElem?_eq_none h] at ht; cases ht
      have : l[i]? = some t := by
        rw [← hpost, List.getElem?_append_left hlt]; exact ht
      rw [hi] at this
      cases this
      simp [hget]
  · intro first second e hfs h1 h2 hg1 hg2
    have hvalid : ∀ ingress ∈ l, validLabels ingress = true := by
      intro ingress hmem
      rw [hfs] at hmem
      simp at hmem
      rcases hmem with rfl | rfl
      · exact h1
      · exact h2
    rw [hch, takeWhile_validLabels_eq l hvalid, hfs]
    simp [observations, observation, hg1, hg2, specOutcome]

theorem collect_labels_and_values_witness :
    (k8s (envInCluster clusterSvc1 httpOnlyA) "~/.kube/config").2 = .ok clusterSvc1 ∧
    getIngresses clusterSvc1
      = .returned [⟨utf8 "ns1", utf8 "svc1", utf8 "a.example.com"⟩,
          ⟨utf8 "ns1", utf8 "svc1", utf8 "b.example.com"⟩] ∧
    (NewExporter.Collect (envInCluster clusterSvc1 httpOnlyA)).ch
      = [{ desc := NewExporter.up, valType := .GaugeValue, val := 1,
           labelValues := [utf8 "ns1", utf8 "svc1", utf8 "a.example.com"] },
         { desc := NewExporter.up, valType := .GaugeValue, val := 0,
           labelValues := [utf8 "ns1", utf8 "svc1", utf8 "b.example.com"] }] :=
  ⟨rfl, rfl,
    (collect_labels_and_values (envInCluster clusterSvc1 httpOnlyA) clusterSvc1
      [⟨utf8 "ns1", utf8 "svc1", utf8 "a.example.com"⟩,
        ⟨utf8 "ns1", utf8 "svc1", utf8 "b.example.com"⟩] rfl rfl).2.2.2.2.2
      ⟨utf8 "ns1", utf8 "svc1", utf8 "a.example.com"⟩
      ⟨utf8 "ns1", utf8 "svc1", utf8 "b.example.com"⟩
      (.msg "connection refused") rfl (by decide) (by decide) rfl rfl⟩

/-- C9, as stated, fails: with three label values for the three labels of the descriptor,
`MustNewConstMetric` panics when the host is the byte `0xFF`, which is not valid UTF-8,
and `Collect` ends by that panic in a cluster that has such a host. -/
theorem mustNewConstMetric_panics_on_invalid_label :
    [utf8 "ns1", utf8 "svc1", ([0xFF] : GoString)].length
      = NewExporter.up.variableLabels.length ∧
    MustNewConstMetric NewExporter.up .GaugeValue 1 [utf8 "ns1", utf8 "svc1", [0xFF]]
      = .panicked (.labelValueNotValidUTF8 [0xFF]) ∧
    (k8s (envInCluster clusterInvalidHost httpAllUp) "~/.kube/config").2
      = .ok clusterInvalidHost ∧
    (∃ l, getIngresses clusterInvalidHost = .returned l) ∧
    (NewExporter.Collect (envInCluster clusterInvalidHost httpAllUp)).outcome
      = .panicked (.labelValueNotValidUTF8 [0xFF]) :=
  ⟨rfl, rfl, rfl, ⟨_, rfl⟩, rfl⟩

/-- C9, amended: every metric sent by `Collect` is a gauge of the one descriptor built by
`NewExporter`, whose name is `service_ready_up`, whose help is "Ready check is ok." and
whose label names are namespace, name, host; its label values are the namespace, name and
host of a discovered host in that order, as many as the descriptor has labels, and its
value is 0 or 1.  `MustNewConstMetric` never panics because of the descriptor or of the
number of label values: it returns the metric when the three label values are valid
UTF-8 and panics exactly when one of them is not, with the error of the first such value;
a panic of `Collect` comes from `k8s`, from `getIngresses` or from such a label value. -/
theorem collect_metric_shape (env : Env) :
    NewExporter.up
      = { fqName := "service_ready_up", help := "Ready check is ok.",
          variableLabels := ["namespace", "name", "host"], err := none } ∧
    (∀ (ingress : Ingress) (status : Int),
      [ingress.namespace_, ingress.name, ingress.host].length
        = NewExporter.up.variableLabels.length ∧
      (validLabels ingress = true →
        MustNewConstMetric NewExporter.up .GaugeValue status
            [ingress.namespace_, ingress.name, ingress.host]
          = .returned
              { desc := NewExporter.up, valType := .GaugeValue, val := status,
                labelValues := [ingress.namespace_, ingress.name, ingress.host] }) ∧
      (validLabels ingress = false →
        ∃ val, firstInvalidLabel ingress = some val ∧ ValidString val = false ∧
          val ∈ [ingress.namespace_, ingress.name, ingress.host] ∧
          MustNewConstMetric NewExporter.up .GaugeValue status
              [ingress.namespace_, ingress.name, ingress.host]
            = .panicked (.labelValueNotValidUTF8 val))) ∧
    (∀ m ∈ (NewExporter.Collect env).ch,
      m.desc = NewExporter.up ∧ m.valType = .GaugeValue ∧
      m.labelValues.length = m.desc.variableLabels.length ∧
      (m.val = 0 ∨ m.val = 1) ∧
      ∃ client l, (k8s env "~/.kube/config").2 = .ok client ∧
        getIngresses client = .returned l ∧
        ∃ ingress ∈ l, m.labelValues = [ingress.namespace_, ingress.name, ingress.host]) ∧
    (∀ e, (NewExporter.Collect env).outcome = .panicked e →
      (k8s env "~/.kube/config").2 = .error e ∨
      (∃ client, (k8s env "~/.kube/config").2 = .ok client ∧
        getIngresses client = .panicked e) ∨
      (∃ client l, (k8s env "~/.kube/config").2 = .ok client ∧
        getIngresses client = .returned l ∧
        ∃ ingress ∈ l, ∃ val ∈ [ingress.namespace_, ingress.name, ingress.host],
          ValidString val = false ∧ e = .labelValueNotValidUTF8 val)) := by
  refine ⟨up_eq, ?_, ?_, ?_⟩
  · intro ingress status
    refine ⟨by rw [up_eq]; rfl, mustNewConstMetric_up_valid status ingress, ?_⟩
    intro hinv
    obtain ⟨val, hval, hnot, hmem⟩ := firstInvalidLabel_eq_some ingress hinv
    exact ⟨val, hval, hnot, hmem, by rw [mustNewConstMetric_up, hval]⟩
  · intro m hm
    cases hk : (k8s env "~/.kube/config").2 with
    | error err => simp [Exporter.Collect, hk] at hm
    | ok client =>
      cases hl : getIngresses client with
      | panicked err => simp [Exporter.Collect, hk, hl] at hm
      | returned l =>
        rw [collect_ch env client l hk hl] at hm
        obtain ⟨ingress, hmem, probe, rfl⟩ := mem_observations _ _ _ _ hm
        refine ⟨rfl, rfl, ?_, specOutcome_zero_or_one probe, client, l, rfl, hl,
          ingress, (List.takeWhile_prefix _).subset hmem, rfl⟩
        simp [observation, up_eq]
  · intro e he
    cases hk : (k8s env "~/.kube/config").2 with
    | error err =>
      simp [Exporter.Collect, hk] at he
      exact Or.inl (by rw [he])
    | ok client =>
      cases hl : getIngresses client with
      | panicked err =>
        simp [Exporter.Collect, hk, hl] at he
        exact Or.inr (Or.inl ⟨client, rfl, he ▸ hl⟩)
      | returned l =>
        cases hf : l.find? (fun ingress => !validLabels ingress) with
        | none =>
          have hvalid : ∀ ingress ∈ l, validLabels ingress = true := by
            intro ingress hmem
            have := List.find?_eq_none.mp hf ingress hmem
            simpa using this
          rw [collect_eq env client l hk hl hvalid] at he
          cases he
        | some bad =>
          have hbadp : validLabels bad = false := by
            have := List.find?_some hf
            simpa using this
          obtain ⟨val, hval, hnot, hmem⟩ := firstInvalidLabel_eq_some bad hbadp
          rw [collect_outcome_invalid env client l bad val hk hl hf hval] at he
          cases he
          exact Or.inr (Or.inr ⟨client, l, rfl, hl, bad, List.mem_of_find?_eq_some hf,
            val, hmem, hnot, rfl⟩)

theorem collect_metric_shape_witness :
    validLabels ⟨utf8 "ns1", utf8 "svc1", utf8 "a.example.com"⟩ = true ∧
    MustNewConstMetric NewExporter.up .GaugeValue 1
        [utf8 "ns1", utf8 "svc1", utf8 "a.example.com"]
      = .returned
          { desc := NewExporter.up, valType := .GaugeValue, val := 1,
            labelValues := [utf8 "ns1", utf8 "svc1", utf8 "a.example.com"] } ∧
    ∀ m ∈ (NewExporter.Collect (envInCluster clusterSvc1 httpOnlyA)).ch,
      m.desc.fqName = "service_ready_up" ∧ (m.val = 0 ∨ m.val = 1) :=
  ⟨by decide,
    ((collect_metric_shape (envInCluster clusterSvc1 httpOnlyA)).2.1
      ⟨utf8 "ns1", utf8 "svc1", utf8 "a.example.com"⟩ 1).2.1 (by decide),
    fun m hm =>
      match (collect_metric_shape (envInCluster clusterSvc1 httpOnlyA)).2.2.1 m hm with
      | ⟨hdesc, _, _, hval, _⟩ => ⟨by rw [hdesc]; rfl, hval⟩⟩

/-! ## Discovery failure: claims C6, C7 -/

/-- C6, as stated, fails: with a cluster whose namespace listing returns an error,
`Collect` does not return normally: it ends by a panic carrying the listing error. -/
theorem collect_listing_error_not_returned :
    (k8s (envInCluster clusterNamespacesFail httpAllUp) "~/.kube/config").2
      = .ok clusterNamespacesFail ∧
    ListingFails clusterNamespacesFail (.msg "namespaces is forbidden") ∧
    (NewExporter.Collect (envInCluster clusterNamespacesFail httpAllUp)).outcome
      = .panicked (.msg "namespaces is forbidden") ∧
    (NewExporter.Collect (envInCluster clusterNamespacesFail httpAllUp)).outcome
      ≠ .returned () :=
  ⟨rfl, Or.inl rfl, rfl, by decide⟩

/-- C6, amended: when listing namespaces, or listing the ingress resources of a listed
namespace, returns an error, `getIngresses` panics with the error of the listing call
that fails first (the namespace listing, or the listing of the first listed namespace
whose listing fails), and `Collect` ends by that panic, not by a normal return, having
emitted zero observations; no other error is the panic value. -/
theorem collect_listing_error_panics (env : Env) (client : Clientset)
    (hk : (k8s env "~/.kube/config").2 = .ok client)
    (hfail : ∃ e, ListingFails client e) :
    (∃ e, FirstListingError client e ∧
      getIngresses client = .panicked e ∧
      (NewExporter.Collect env).outcome = .panicked e ∧
      (NewExporter.Collect env).outcome ≠ .returned () ∧
      (NewExporter.Collect env).ch = []) ∧
    (∀ e, (NewExporter.Collect env).outcome = .panicked e → FirstListingError client e) := by
  obtain ⟨e, hfirst⟩ := exists_firstListingError client hfail
  have hp := getIngresses_first_error client e hfirst
  have hc := collect_discovery_panics env client e hk hp
  refine ⟨⟨e, hfirst, hp, ?_, ?_, ?_⟩, ?_⟩
  · rw [hc]
  · rw [hc]; simp
  · rw [hc]
  · intro e' he'
    rw [hc] at he'
    cases he'
    exact hfirst

theorem collect_listing_error_panics_witness :
    (k8s (envInCluster clusterBothFail httpAllUp) "~/.kube/config").2
      = .ok clusterBothFail ∧
    ListingFails clusterBothFail (.msg "first failed") ∧
    ListingFails clusterBothFail (.msg "second failed") ∧
    (NewExporter.Collect (envInCluster clusterBothFail httpAllUp)).outcome
      = .panicked (.msg "first failed") ∧
    FirstListingError clusterBothFail (.msg "first failed") ∧
    (NewExporter.Collect (envInCluster clusterBothFail httpAllUp)).ch = [] :=
  ⟨rfl, Or.inr ⟨_, rfl, ⟨utf8 "ns1"⟩, by simp, rfl⟩,
    Or.inr ⟨_, rfl, ⟨utf8 "ns2"⟩, by simp, rfl⟩, rfl,
    (collect_listing_error_panics (envInCluster clusterBothFail httpAllUp) clusterBothFail
      rfl ⟨.msg "first failed", Or.inr ⟨_, rfl, ⟨utf8 "ns1"⟩, by simp, rfl⟩⟩).2 _ rfl,
    match (collect_listing_error_panics (envInCluster clusterBothFail httpAllUp)
      clusterBothFail rfl
      ⟨.msg "first failed", Or.inr ⟨_, rfl, ⟨utf8 "ns1"⟩, by simp, rfl⟩⟩).1 with
    | ⟨_, _, _, _, _, hch⟩ => hch⟩

/-- C7: whenever the namespace listing fails or the ingress listing of a listed namespace
fails, `Collect` sends no metric on the channel and issues no readiness probe, also for
the hosts of namespaces listed successfully before the failing one. -/
theorem collect_no_partial_list (env : Env) (client : Clientset)
    (hk : (k8s env "~/.kube/config").2 = .ok client)
    (hfail : ∃ e, ListingFails client e) :
    (NewExporter.Collect env).ch = [] ∧ (NewExporter.Collect env).requests = [] := by
  obtain ⟨e, hp, -⟩ := getIngresses_fail client hfail
  rw [collect_discovery_panics env client e hk hp]
  exact ⟨rfl, rfl⟩

theorem collect_no_partial_list_witness :
    (k8s (envInCluster clusterSecondFails httpAllUp) "~/.kube/config").2
      = .ok clusterSecondFails ∧
    clusterSecondFails.listIngresses (utf8 "ns1") = .ok ⟨[⟨utf8 "svc1", ⟨[⟨utf8 "a.example.com"⟩]⟩⟩]⟩ ∧
    (∃ e, ListingFails clusterSecondFails e) ∧
    (NewExporter.Collect (envInCluster clusterSecondFails httpAllUp)).ch = [] ∧
    (NewExporter.Collect (envInCluster clusterSecondFails httpAllUp)).requests = [] :=
  ⟨rfl, rfl, ⟨.msg "ingresses is forbidden", Or.inr ⟨_, rfl, ⟨utf8 "ns2"⟩, by simp, rfl⟩⟩,
    collect_no_partial_list (envInCluster clusterSecondFails httpAllUp) clusterSecondFails rfl
      ⟨.msg "ingresses is forbidden", Or.inr ⟨_, rfl, ⟨utf8 "ns2"⟩, by simp, rfl⟩⟩⟩

/-! ## Connection resolution: claims C8, C10 -/

/-- C8: `k8s` resolves the configuration in the order environment content, in-cluster
credential, config file: a non-empty `KUBECONFIG_CONTENT` that parses is used whatever the
other two sources would give; when it is empty the in-cluster configuration is used if it
can be obtained; the config file, at the given path, is consulted only when
`KUBECONFIG_CONTENT` is empty and the in-cluster configuration fails, and is then used. -/
theorem k8s_priority_order (env : Env) (kubeconfig : String) :
    (∀ cfg, env.KUBECONFIG_CONTENT ≠ "" →
      env.RESTConfigFromKubeConfig env.KUBECONFIG_CONTENT = .ok cfg →
      k8s env kubeconfig
        = ([.RESTConfigFromKubeConfig env.KUBECONFIG_CONTENT, .NewForConfig cfg],
            env.NewForConfig cfg)) ∧
    (∀ cfg, env.KUBECONFIG_CONTENT = "" → env.InClusterConfig = .ok cfg →
      k8s env kubeconfig = ([.InClusterConfig, .NewForConfig cfg], env.NewForConfig cfg)) ∧
    (∀ e cfg, env.KUBECONFIG_CONTENT = "" → env.InClusterConfig = .error e →
      env.BuildConfigFromFlags "" kubeconfig = .ok cfg →
      k8s env kubeconfig
        = ([.InClusterConfig, .BuildConfigFromFlags "" kubeconfig, .NewForConfig cfg],
            env.NewForConfig cfg)) ∧
    (∀ masterUrl path, Call.BuildConfigFromFlags masterUrl path ∈ (k8s env kubeconfig).1 →
      masterUrl = "" ∧ path = kubeconfig ∧ env.KUBECONFIG_CONTENT = "" ∧
        ∃ e, env.InClusterConfig = .error e) := by
  refine ⟨?_, ?_, ?_, ?_⟩
  · intro cfg hc hp
    simp [k8s, hc, hp]
  · intro cfg hc hi
    simp [k8s, hc, hi]
  · intro e cfg hc hi hb
    simp [k8s, hc, hi, hb]
  · intro masterUrl path hmem
    unfold k8s at hmem
    by_cases hc : env.KUBECONFIG_CONTENT = ""
    · cases hi : env.InClusterConfig with
      | ok cfg => simp [hc, hi] at hmem
      | error e =>
        cases hb : env.BuildConfigFromFlags "" kubeconfig with
        | error e2 =>
          simp [hc, hi, hb] at hmem
          exact ⟨hmem.1, hmem.2, hc, e, rfl⟩
        | ok cfg =>
          simp [hc, hi, hb] at hmem
          exact ⟨hmem.1, hmem.2, hc, e, rfl⟩
    · cases hp : env.RESTConfigFromKubeConfig env.KUBECONFIG_CONTENT with
      | error e => simp [hc, hp] at hmem
      | ok cfg => simp [hc, hp] at hmem

theorem k8s_priority_order_witness :
    envAllSources.KUBECONFIG_CONTENT ≠ "" ∧
    envAllSources.InClusterConfig = .ok ⟨"in-cluster"⟩ ∧
    envAllSources.BuildConfigFromFlags "" "~/.kube/config" = .ok ⟨"file"⟩ ∧
    k8s envAllSources "~/.kube/config"
      = ([.RESTConfigFromKubeConfig "apiVersion: v1", .NewForConfig ⟨"content"⟩],
          .ok clusterSvc1) :=
  ⟨by decide, rfl, rfl,
    (k8s_priority_order envAllSources "~/.kube/config").1 ⟨"content"⟩ (by decide) rfl⟩

/-- C10: the fallback of `k8s` is one-sided: a non-empty `KUBECONFIG_CONTENT` that does
not parse makes `k8s` return the parse error without trying the in-cluster credential or
the config file; with an empty `KUBECONFIG_CONTENT`, when the in-cluster credential and
the config file both fail the error returned is the config file's; and `k8s` returns an
error only in these two cases or when building the client from the resolved configuration
fails. -/
theorem k8s_one_sided_fallback (env : Env) (kubeconfig : String) :
    (∀ e, env.KUBECONFIG_CONTENT ≠ "" →
      env.RESTConfigFromKubeConfig env.KUBECONFIG_CONTENT = .error e →
      k8s env kubeconfig
        = ([.RESTConfigFromKubeConfig env.KUBECONFIG_CONTENT], .error e)) ∧
    (∀ e1 e2, env.KUBECONFIG_CONTENT = "" → env.InClusterConfig = .error e1 →
      env.BuildConfigFromFlags "" kubeconfig = .error e2 →
      k8s env kubeconfig
        = ([.InClusterConfig, .BuildConfigFromFlags "" kubeconfig], .error e2)) ∧
    (∀ e, (k8s env kubeconfig).2 = .error e →
      (env.KUBECONFIG_CONTENT ≠ "" ∧
        env.RESTConfigFromKubeConfig env.KUBECONFIG_CONTENT = .error e) ∨
      (env.KUBECONFIG_CONTENT = "" ∧ (∃ e1, env.InClusterConfig = .error e1) ∧
        env.BuildConfigFromFlags "" kubeconfig = .error e) ∨
      (∃ cfg, Call.NewForConfig cfg ∈ (k8s env kubeconfig).1 ∧
        env.NewForConfig cfg = .error e)) := by
  refine ⟨?_, ?_, ?_⟩
  · intro e hc hp
    simp [k8s, hc, hp]
  · intro e1 e2 hc hi hb
    simp [k8s, hc, hi, hb]
  · intro e he
    unfold k8s at he ⊢
    by_cases hc : env.KUBECONFIG_CONTENT = ""
    · cases hi : env.InClusterConfig with
      | ok cfg =>
        simp [hc, hi] at he ⊢
        exact he
      | error e1 =>
        cases hb : env.BuildConfigFromFlags "" kubeconfig with
        | error e2 =>
          simp [hc, hi, hb] at he ⊢
          exact he
        | ok cfg =>
          simp [hc, hi, hb] at he ⊢
          exact he
    · cases hp : env.RESTConfigFromKubeConfig env.KUBECONFIG_CONTENT with
      | error e1 =>
        simp [hc, hp] at he ⊢
        exact he
      | ok cfg =>
        simp [hc, hp] at he ⊢
        exact he

theorem k8s_one_sided_fallback_witness :
    envBadContent.KUBECONFIG_CONTENT ≠ "" ∧
    envBadContent.InClusterConfig = .ok ⟨"in-cluster"⟩ ∧
    envBadContent.BuildConfigFromFlags "" "~/.kube/config" = .ok ⟨"file"⟩ ∧
    k8s envBadContent "~/.kube/config"
      = ([.RESTConfigFromKubeConfig "not a kubeconfig"], .error (.msg "cannot parse kubeconfig")) :=
  ⟨by decide, rfl, rfl,
    (k8s_one_sided_fallback envBadContent "~/.kube/config").1
      (.msg "cannot parse kubeconfig")
      (by decide) rfl⟩

end ServiceReady
